import Mathlib

/-!
Shallow embedding of the summary-statistics pipeline of
`src/preprocess_data.py` (`process_json_to_parquet`, lines 33-85).

The per-strategy computation takes the JSON list of per-hand records
(each a `profit`, with an optional `bet`) and produces the summary
statistics object written to `<strategy>_summary.json`.  Python floats
are modelled as exact rationals; pandas/NumPy missing values (`NaN`,
arising when the `bet` field is present on some records and absent on
others) are modelled as `Option ℚ` with `none` playing the role of NaN.
-/

namespace Blackjack

/-- One per-hand record of the raw JSON input: a required `profit` and an
optional `bet` field. -/
structure OutcomeRecord where
  profit : ℚ
  bet : Option ℚ
deriving Repr, DecidableEq

/-- Failure modes of the per-strategy computation.  `keyError` is what the
code actually raises (pandas `KeyError` when a column is selected from a
DataFrame that lacks it). `emptyInputError`/`schemaInconsistencyError` are
the error taxonomy the specification prescribes; they appear here only so
that statements about them can be made — the code never raises them. -/
inductive PipelineError where
  | keyError (column : String)
  | emptyInputError
  | schemaInconsistencyError
deriving Repr, DecidableEq

/-- One point of the bankroll history: `{"hand": int(i), "bankroll": float(cumulative_profits[i])}`. -/
structure BankrollPoint where
  hand : ℕ
  bankroll : ℚ
deriving Repr, DecidableEq

/-- The summary-statistics object (`summary_stats`, lines 76-85), minus the
`stdDeviation` field: `stdDeviation` is the square root of the (rational)
population variance and is generally irrational, so it is treated at the
theorem level as `Real.sqrt` of `npVariance` rather than stored here. -/
structure SummaryStats where
  simulations : ℕ
  totalWinnings : ℚ
  winRate : ℚ
  avgNetPerHand : ℚ
  roi : ℚ
  winningsDistribution : List (String × ℕ)
  bankrollHistory : List BankrollPoint
deriving Repr, DecidableEq

/-- `profits = df['profit'].values`. -/
def profitsOf (l : List OutcomeRecord) : List ℚ := l.map (·.profit)

/-- `'bet' in df.columns`: a DataFrame built from a list of dicts has a
`bet` column iff at least one record carries the field. -/
def hasBetColumn (l : List OutcomeRecord) : Bool := l.any (·.bet.isSome)

/-- The `bets` array (line 38): if the `bet` column exists its values are
taken as-is, with `NaN` (= `none`) where a record lacks the field;
otherwise `np.full(len(df), 10)`. -/
def betsOf (l : List OutcomeRecord) : List (Option ℚ) :=
  if hasBetColumn l then l.map (·.bet) else l.map (fun _ => some 10)

/-- NaN-propagating sum: the sum of a NumPy array is NaN as soon as one
entry is NaN. -/
def nanSum (l : List (Option ℚ)) : Option ℚ :=
  l.foldr (fun o acc => match o, acc with
    | some b, some s => some (b + s)
    | _, _ => none) (some 0)

/-- `total_wagered = bets.sum()` (line 41). -/
def totalWagered (l : List OutcomeRecord) : Option ℚ := nanSum (betsOf l)

/-- `.mean()` of a NumPy array: sum divided by length. -/
def npMean (l : List ℚ) : ℚ := l.sum / l.length

/-- `.std()` of a NumPy array with the default `ddof=0`, up to the final
square root: the mean is computed first, then the mean of the squared
absolute deviations.  `stdDeviation` itself (line 44) is
`Real.sqrt (npVariance profits)`. -/
def npVariance (l : List ℚ) : ℚ := npMean (l.map (fun p => |p - npMean l| ^ 2))

/-- Population variance as the specification words it (§4.1): the mean
first, then the sum of squared deviations divided by `N` (not `N - 1`). -/
def specPopVariance (l : List ℚ) : ℚ :=
  (l.map (fun p => (p - l.sum / l.length) ^ 2)).sum / l.length

/-- `win_rate = np.sum(profits > 0) / len(profits) * 100` (line 42). -/
def winRateOf (profits : List ℚ) : ℚ :=
  (profits.countP (fun p => decide (0 < p)) : ℚ) / profits.length * 100

/-- `roi = (total_profit / total_wagered * 100) if total_wagered > 0 else 0`
(line 45).  A NaN `total_wagered` compares false against `0`, so it takes
the `else` branch. -/
def roiOf (totalProfit : ℚ) (wagered : Option ℚ) : ℚ :=
  match wagered with
  | some w => if 0 < w then totalProfit / w * 100 else 0
  | none => 0

/-- Count for the `(-inf, -20)` range, `"Big Loss (<-$20)"`:
`np.sum(profits <= high)` with `high = -20` (line 60). -/
def bigLossCount (profits : List ℚ) : ℕ := profits.countP (fun p => decide (p ≤ -20))

/-- Count for the `(-20, 0)` range, `"Small Loss (-$20 to $0)"`:
`np.sum((profits > low) & (profits <= high))` (line 62). -/
def smallLossCount (profits : List ℚ) : ℕ :=
  profits.countP (fun p => decide (-20 < p) && decide (p ≤ 0))

/-- Count for the `(0, 20)` range, `"Small Win ($0 to $20)"` (line 62). -/
def smallWinCount (profits : List ℚ) : ℕ :=
  profits.countP (fun p => decide (0 < p) && decide (p ≤ 20))

/-- Count for the `(20, inf)` range, `"Big Win (>$20)"`:
`np.sum(profits >= low)` with `low = 20` (line 58) — note the comparison is
inclusive at `20` even though the label says `> $20`. -/
def bigWinCount (profits : List ℚ) : ℕ := profits.countP (fun p => decide (20 ≤ p))

/-- The `winnings_distribution` list (lines 48-63), bins in the fixed order
of `winnings_ranges`. -/
def winningsDistributionOf (profits : List ℚ) : List (String × ℕ) :=
  [("Big Loss (<-$20)", bigLossCount profits),
   ("Small Loss (-$20 to $0)", smallLossCount profits),
   ("Small Win ($0 to $20)", smallWinCount profits),
   ("Big Win (>$20)", bigWinCount profits)]

/-- `np.cumsum(profits)` (line 66): entry `i` is the sum of the first
`i + 1` profits. -/
def cumsum (l : List ℚ) : List ℚ :=
  (List.range l.length).map (fun i => (l.take (i + 1)).sum)

/-- `np.linspace(0, stop, num, dtype=int)` with a natural `stop`: the `k`-th
float value is `k * stop / (num - 1)` and the `dtype=int` cast truncates it,
so each entry is the natural-number (floor) division `k * stop / (num - 1)`.
For `num = 1` NumPy returns `[0]`, which the same formula yields since
Lean's natural division by `0` is `0`. -/
def linspaceInt (stop num : ℕ) : List ℕ :=
  (List.range num).map (fun k => k * stop / (num - 1))

/-- The sampled indices (lines 67-68): `sample_size = min(500, N)` and
`indices = np.linspace(0, N - 1, sample_size, dtype=int)`. -/
def sampleIndices (n : ℕ) : List ℕ := linspaceInt (n - 1) (min 500 n)

/-- The `bankroll_history` list (lines 70-73). -/
def bankrollHistoryOf (profits : List ℚ) : List BankrollPoint :=
  (sampleIndices profits.length).map
    (fun i => { hand := i, bankroll := (cumsum profits).getD i 0 })

/-- The `summary_stats` object assembled on lines 76-85 (minus
`stdDeviation`, see `SummaryStats`). -/
def summaryStatsOf (l : List OutcomeRecord) : SummaryStats :=
  { simulations := l.length
    totalWinnings := (profitsOf l).sum
    winRate := winRateOf (profitsOf l)
    avgNetPerHand := npMean (profitsOf l)
    roi := roiOf (profitsOf l).sum (totalWagered l)
    winningsDistribution := winningsDistributionOf (profitsOf l)
    bankrollHistory := bankrollHistoryOf (profitsOf l) }

/-- The per-strategy body of `process_json_to_parquet` (lines 33-85):
building the DataFrame and computing `summary_stats`.  On an empty input
list the DataFrame has no columns, so the very first step
`df['profit']` (line 37) raises `KeyError: 'profit'` and no summary is
produced; otherwise every statistic is computed and the summary object is
assembled. -/
def process (l : List OutcomeRecord) : Except PipelineError SummaryStats :=
  if l = [] then .error (.keyError "profit") else .ok (summaryStatsOf l)

/-- Scenario A of the specification (§8): profits `[-30, -5, 5, 25]` with
the `bet` field absent from every record. -/
def scenarioA : List OutcomeRecord := [⟨-30, none⟩, ⟨-5, none⟩, ⟨5, none⟩, ⟨25, none⟩]

/-! ### Helper lemmas -/

theorem process_eq_ok {l : List OutcomeRecord} (h : l ≠ []) :
    process l = Except.ok (summaryStatsOf l) := by
  unfold process
  rw [if_neg h]

theorem nanSum_cons (a : Option ℚ) (l : List (Option ℚ)) :
    nanSum (a :: l) = match a, nanSum l with
      | some b, some s => some (b + s)
      | _, _ => none := rfl

theorem nanSum_eq_none {l : List (Option ℚ)} (h : none ∈ l) : nanSum l = none := by
  induction l with
  | nil => cases h
  | cons a t ih =>
    rcases List.mem_cons.mp h with h1 | h2
    · rw [← h1, nanSum_cons]
    · rw [nanSum_cons, ih h2]
      cases a <;> rfl

theorem sampleIndices_length (n : ℕ) : (sampleIndices n).length = min 500 n := by
  simp [sampleIndices, linspaceInt]

theorem sampleIndices_small {n : ℕ} (h : n ≤ 500) :
    sampleIndices n = List.range n := by
  unfold sampleIndices linspaceInt
  rw [min_eq_right h]
  have h1 : ∀ k ∈ List.range n, k * (n - 1) / (n - 1) = k := by
    intro k hk
    have hk' : k < n := List.mem_range.mp hk
    rcases Nat.eq_zero_or_pos (n - 1) with h0 | hpos
    · have hk0 : k = 0 := by omega
      simp [hk0, h0]
    · exact Nat.mul_div_cancel k hpos
  rw [List.map_congr_left h1, List.map_id']

theorem sampleIndices_large {n : ℕ} (h : 500 < n) :
    sampleIndices n = (List.range 500).map (fun k => k * (n - 1) / 499) := by
  unfold sampleIndices linspaceInt
  rw [min_eq_left (by omega)]

theorem sampleIndices_head {n : ℕ} (h : 1 ≤ n) :
    (sampleIndices n).head? = some 0 := by
  unfold sampleIndices linspaceInt
  rw [List.head?_eq_getElem?, List.getElem?_map,
    List.getElem?_range (by omega : 0 < min 500 n)]
  simp

theorem sampleIndices_getLast {n : ℕ} (h : 1 ≤ n) :
    (sampleIndices n).getLast? = some (n - 1) := by
  unfold sampleIndices linspaceInt
  have hm : 1 ≤ min 500 n := by omega
  rw [List.getLast?_eq_getElem?, List.length_map, List.length_range,
    List.getElem?_map, List.getElem?_range (by omega : min 500 n - 1 < min 500 n)]
  rcases Nat.lt_or_ge (min 500 n) 2 with h2 | h2
  · have hn1 : n = 1 := by omega
    simp [hn1]
  · rw [Option.map_some']
    congr 1
    exact Nat.mul_div_cancel_left (n - 1) (by omega)

theorem sampleIndices_pairwise (n : ℕ) :
    (sampleIndices n).Pairwise (· ≤ ·) := by
  unfold sampleIndices linspaceInt
  rw [List.pairwise_map]
  refine (List.pairwise_lt_range _).imp ?_
  intro a b hab
  exact Nat.div_le_div_right (Nat.mul_le_mul_right _ (le_of_lt hab))

theorem sampleIndices_lt {n : ℕ} (h : 1 ≤ n) :
    ∀ i ∈ sampleIndices n, i < n := by
  intro i hi
  unfold sampleIndices linspaceInt at hi
  obtain ⟨k, hk, rfl⟩ := List.mem_map.mp hi
  have hk' : k < min 500 n := List.mem_range.mp hk
  rcases Nat.eq_zero_or_pos (min 500 n - 1) with h0 | hpos
  · rw [h0, Nat.div_zero]
    omega
  · have h1 : k * (n - 1) ≤ (min 500 n - 1) * (n - 1) :=
      Nat.mul_le_mul_right _ (by omega)
    have h2 : k * (n - 1) / (min 500 n - 1) ≤ (min 500 n - 1) * (n - 1) / (min 500 n - 1) :=
      Nat.div_le_div_right h1
    rw [Nat.mul_div_cancel_left _ hpos] at h2
    omega

theorem cumsum_getD {l : List ℚ} {i : ℕ} (h : i < l.length) :
    (cumsum l).getD i 0 = (l.take (i + 1)).sum := by
  unfold cumsum
  rw [List.getD_eq_getElem?_getD, List.getElem?_map, List.getElem?_range h]
  rfl

theorem bankrollHistory_map_hand (ps : List ℚ) :
    (bankrollHistoryOf ps).map (·.hand) = sampleIndices ps.length := by
  unfold bankrollHistoryOf
  rw [List.map_map]
  have hcomp : ((fun x : BankrollPoint => x.hand) ∘
      fun i => ({ hand := i, bankroll := (cumsum ps).getD i 0 } : BankrollPoint)) =
      fun i => i := rfl
  rw [hcomp, List.map_id']

theorem profitsOf_length (l : List OutcomeRecord) :
    (profitsOf l).length = l.length := List.length_map l _

/-! ### Claims -/

/-- C1: the claim says each record falls into exactly one of the 4 bins so
that the bin counts sum to `simulations`.  The code violates this: the
`"Big Win (>$20)"` range is counted with `profits >= 20` (line 58), so a
record with `profit = 20` is counted both in `"Small Win ($0 to $20)"` and
in `"Big Win (>$20)"` — for the single-record input with `profit = 20` the
bin counts are `[0, 0, 1, 1]`, summing to `2` while `simulations = 1`. -/
theorem profit20_counted_in_two_bins :
    smallWinCount [20] = 1 ∧ bigWinCount [20] = 1 ∧
    (process [⟨20, none⟩]).toOption.map
        (fun s => (s.simulations, (s.winningsDistribution.map Prod.snd).sum)) =
      some (1, 2) := by decide

/-- C2 counterexample: on the empty sequence the code does not fail with
the spec's `EmptyInputError`. -/
theorem empty_input_no_emptyInputError :
    process ([] : List OutcomeRecord) ≠
      Except.error PipelineError.emptyInputError := by
  simp [process]

/-- C2 amended: on the empty sequence the code fails — with a pandas
`KeyError` on the missing `profit` column, not a dedicated
`EmptyInputError` — and produces no summary record. -/
theorem empty_input_fails_with_keyError :
    process ([] : List OutcomeRecord) =
      Except.error (PipelineError.keyError "profit") := rfl

/-- C3 counterexample: for a sequence where `bet` is present on one record
and absent on the other, the code does not raise
`SchemaInconsistencyError`; it returns a summary. -/
theorem mixed_bet_no_schema_error :
    process [⟨1, some 5⟩, ⟨2, none⟩] ≠
        Except.error PipelineError.schemaInconsistencyError ∧
    (process [⟨1, some 5⟩, ⟨2, none⟩]).isOk = true := by
  rw [process_eq_ok (by decide)]
  exact ⟨fun hcontra => Except.noConfusion hcontra, rfl⟩

/-- C3 amended: when the optional `bet` field is present on some records
and absent on others, the code silently defaults the missing values to NaN
(pandas fills the missing column entries), so `total_wagered` is NaN, the
`roi` guard takes the `else` branch giving `roi = 0`, and a full summary
record is produced — no error is raised. -/
theorem mixed_bet_silently_accepted (l : List OutcomeRecord)
    (h1 : ∃ r ∈ l, r.bet.isSome) (h2 : ∃ r ∈ l, r.bet.isNone) :
    process l = Except.ok (summaryStatsOf l) ∧ (summaryStatsOf l).roi = 0 := by
  have hne : l ≠ [] := by
    rintro rfl
    obtain ⟨r, hr, -⟩ := h1
    exact absurd hr (List.not_mem_nil r)
  refine ⟨process_eq_ok hne, ?_⟩
  show roiOf (profitsOf l).sum (totalWagered l) = 0
  have hw : totalWagered l = none := by
    unfold totalWagered betsOf
    have hcol : hasBetColumn l = true := by
      obtain ⟨r, hr, hs⟩ := h1
      exact List.any_eq_true.mpr ⟨r, hr, hs⟩
    rw [if_pos hcol]
    apply nanSum_eq_none
    obtain ⟨r, hr, hn⟩ := h2
    exact List.mem_map.mpr ⟨r, hr, Option.isNone_iff_eq_none.mp hn⟩
  rw [hw]
  rfl

theorem mixed_bet_silently_accepted_witness :
    (summaryStatsOf [(⟨1, some 5⟩ : OutcomeRecord), ⟨2, none⟩]).roi = 0 :=
  (mixed_bet_silently_accepted [⟨1, some 5⟩, ⟨2, none⟩]
    (by decide) (by decide)).2

/-- C4 counterexample: `roi == 0` does not hold exactly when
`totalWagered == 0`: the single record `{profit: 0}` with the default bet
of 10 gives `totalWagered = 10 ≠ 0` yet `roi = 0`. -/
theorem roi_zero_with_nonzero_wager :
    totalWagered [⟨0, none⟩] = some 10 ∧ (10 : ℚ) ≠ 0 ∧
    (process [⟨0, none⟩]).toOption.map (fun s => s.roi) = some 0 := by
  refine ⟨?_, by norm_num, ?_⟩
  · norm_num [totalWagered, betsOf, hasBetColumn, nanSum]
  · rw [process_eq_ok (by decide)]
    show some (summaryStatsOf [(⟨0, none⟩ : OutcomeRecord)]).roi = some 0
    norm_num [summaryStatsOf, roiOf, totalWagered, betsOf, hasBetColumn, nanSum,
      profitsOf]

/-- C4 amended: `totalWagered = 0` implies `roi = 0` (the exact value `0`,
not NaN, infinity or an error, since the guard `total_wagered > 0` routes
it to the literal `0` branch), and when `totalWagered > 0`,
`roi = totalWinnings / totalWagered * 100`; but the converse of the first
part fails — `roi` is also `0` whenever `totalWinnings = 0`, whenever
`totalWagered` is negative, and whenever `totalWagered` is NaN. -/
theorem roi_division_guard (l : List OutcomeRecord) (h : l ≠ []) :
    process l = Except.ok (summaryStatsOf l) ∧
    (totalWagered l = some 0 → (summaryStatsOf l).roi = 0) ∧
    (∀ w : ℚ, totalWagered l = some w → 0 < w →
      (summaryStatsOf l).roi = (profitsOf l).sum / w * 100) ∧
    (∀ w : ℚ, totalWagered l = some w → w ≤ 0 → (summaryStatsOf l).roi = 0) ∧
    (totalWagered l = none → (summaryStatsOf l).roi = 0) := by
  refine ⟨process_eq_ok h, ?_, ?_, ?_, ?_⟩
  · intro h0
    show roiOf (profitsOf l).sum (totalWagered l) = 0
    rw [h0]
    simp [roiOf]
  · intro w hw hpos
    show roiOf (profitsOf l).sum (totalWagered l) = _
    rw [hw]
    simp [roiOf, hpos]
  · intro w hw hneg
    show roiOf (profitsOf l).sum (totalWagered l) = 0
    rw [hw]
    simp [roiOf, not_lt.mpr hneg]
  · intro hn
    show roiOf (profitsOf l).sum (totalWagered l) = 0
    rw [hn]
    rfl

theorem roi_division_guard_witness :
    (summaryStatsOf [(⟨7, some 0⟩ : OutcomeRecord)]).roi = 0 :=
  (roi_division_guard [⟨7, some 0⟩] (by decide)).2.1
    (by simp [totalWagered, betsOf, hasBetColumn, nanSum])

/-- C5: for a non-empty sequence of length `N`, when `N ≤ 500` the sampler
emits the hand indices `0 .. N-1` in order (one point per hand), and when
`N > 500` it emits exactly 500 points whose hand indices are the
deterministic evenly-spaced selection `⌊k * (N-1) / 499⌋` for
`k = 0 .. 499` over `[0, N-1]` (duplicates after the integer conversion
kept as-is), with the first index `0` and the last index `N - 1` always
included. -/
theorem trajectory_sampler_indices (l : List OutcomeRecord) (h : l ≠ []) :
    (l.length ≤ 500 →
      (summaryStatsOf l).bankrollHistory.map (·.hand) = List.range l.length) ∧
    (500 < l.length →
      (summaryStatsOf l).bankrollHistory.map (·.hand) =
        (List.range 500).map (fun k => k * (l.length - 1) / 499) ∧
      (summaryStatsOf l).bankrollHistory.length = 500 ∧
      ((summaryStatsOf l).bankrollHistory.map (·.hand)).head? = some 0 ∧
      ((summaryStatsOf l).bankrollHistory.map (·.hand)).getLast? =
        some (l.length - 1)) := by
  have hmap : (summaryStatsOf l).bankrollHistory.map (·.hand) =
      sampleIndices l.length := by
    show (bankrollHistoryOf (profitsOf l)).map (·.hand) = _
    rw [bankrollHistory_map_hand, profitsOf_length]
  have hlen : (summaryStatsOf l).bankrollHistory.length =
      (sampleIndices l.length).length := by
    rw [← List.length_map (summaryStatsOf l).bankrollHistory (·.hand), hmap]
  constructor
  · intro h5
    rw [hmap, sampleIndices_small h5]
  · intro h5
    refine ⟨?_, ?_, ?_, ?_⟩
    · rw [hmap, sampleIndices_large h5]
    · rw [hlen, sampleIndices_length]
      omega
    · rw [hmap]
      exact sampleIndices_head (by omega)
    · rw [hmap]
      exact sampleIndices_getLast (by omega)

theorem trajectory_sampler_indices_witness :
    (summaryStatsOf [(⟨1, none⟩ : OutcomeRecord)]).bankrollHistory.map (·.hand) =
      List.range ([(⟨1, none⟩ : OutcomeRecord)].length) :=
  (trajectory_sampler_indices [⟨1, none⟩] (by decide)).1 (by decide)

/-- C6: for every non-empty sequence the bankroll history is non-decreasing
in its hand index, its last entry's bankroll equals `totalWinnings` (the
sum of all profits), and each entry's bankroll is the cumulative sum of
profit up to and including its hand. -/
theorem bankroll_history_invariants (l : List OutcomeRecord) (h : l ≠ []) :
    process l = Except.ok (summaryStatsOf l) ∧
    (summaryStatsOf l).bankrollHistory.Pairwise (fun a b => a.hand ≤ b.hand) ∧
    ((summaryStatsOf l).bankrollHistory.getLast?).map (·.bankroll) =
      some (summaryStatsOf l).totalWinnings ∧
    ∀ p ∈ (summaryStatsOf l).bankrollHistory,
      p.bankroll = ((profitsOf l).take (p.hand + 1)).sum := by
  have hn : 1 ≤ (profitsOf l).length := by
    rw [profitsOf_length]
    exact List.length_pos.mpr h
  refine ⟨process_eq_ok h, ?_, ?_, ?_⟩
  · show (bankrollHistoryOf (profitsOf l)).Pairwise _
    unfold bankrollHistoryOf
    rw [List.pairwise_map]
    exact (sampleIndices_pairwise _).imp (fun hab => hab)
  · show ((bankrollHistoryOf (profitsOf l)).getLast?).map (·.bankroll) =
      some (profitsOf l).sum
    unfold bankrollHistoryOf
    rw [List.getLast?_map, sampleIndices_getLast hn, Option.map_some',
      Option.map_some']
    show some ((cumsum (profitsOf l)).getD ((profitsOf l).length - 1) 0) = _
    rw [cumsum_getD (by omega)]
    congr 1
    have h1 : (profitsOf l).length - 1 + 1 = (profitsOf l).length := by omega
    rw [h1, List.take_length]
  · intro p hp
    have hp' : p ∈ (sampleIndices (profitsOf l).length).map
        (fun i => ({ hand := i, bankroll := (cumsum (profitsOf l)).getD i 0 } :
          BankrollPoint)) := hp
    obtain ⟨i, hi, rfl⟩ := List.mem_map.mp hp'
    show (cumsum (profitsOf l)).getD i 0 = _
    exact cumsum_getD (sampleIndices_lt hn i hi)

theorem bankroll_history_invariants_witness :
    ((summaryStatsOf [(⟨2, none⟩ : OutcomeRecord)]).bankrollHistory.getLast?).map
        (·.bankroll) =
      some (summaryStatsOf [(⟨2, none⟩ : OutcomeRecord)]).totalWinnings :=
  (bankroll_history_invariants [⟨2, none⟩] (by decide)).2.2.1

/-- C7: a record with `profit` exactly `-20` is counted in the
`"Big Loss (<-$20)"` bin (whose comparison `profits <= -20` is inclusive at
the lower boundary) and not in the `"Small Loss (-$20 to $0)"` bin (whose
comparison requires `profits > -20`). -/
theorem minus20_in_bigLoss_not_smallLoss (profits : List ℚ) :
    bigLossCount (-20 :: profits) = bigLossCount profits + 1 ∧
    smallLossCount (-20 :: profits) = smallLossCount profits := by
  unfold bigLossCount smallLossCount
  rw [List.countP_cons, List.countP_cons]
  norm_num

/-- C8: Scenario A — profits `[-30, -5, 5, 25]` with `bet` absent from
every record (each defaulting to 10) yields `simulations = 4`,
`totalWinnings = -5`, `winRate = 50`, `avgNetPerHand = -5/4 = -1.25`,
`totalWagered = 40`, `roi = -25/2 = -12.5`, and each of the four bins has
count 1. -/
theorem scenarioA_summary :
    process scenarioA = Except.ok (summaryStatsOf scenarioA) ∧
    totalWagered scenarioA = some 40 ∧
    (summaryStatsOf scenarioA).simulations = 4 ∧
    (summaryStatsOf scenarioA).totalWinnings = -5 ∧
    (summaryStatsOf scenarioA).winRate = 50 ∧
    (summaryStatsOf scenarioA).avgNetPerHand = -5/4 ∧
    (summaryStatsOf scenarioA).roi = -25/2 ∧
    (summaryStatsOf scenarioA).winningsDistribution.map Prod.snd =
      [1, 1, 1, 1] := by
  refine ⟨process_eq_ok (by decide), ?_, ?_, ?_, ?_, ?_, ?_, ?_⟩ <;>
    norm_num [scenarioA, summaryStatsOf, totalWagered, betsOf, hasBetColumn,
      nanSum, profitsOf, winRateOf, npMean, roiOf, winningsDistributionOf,
      bigLossCount, smallLossCount, smallWinCount, bigWinCount, List.countP,
      List.countP.go]

/-- C9: the `stdDeviation` of line 44 is `profits.std()`, i.e.
`Real.sqrt (npVariance profits)` where NumPy (with its default `ddof=0`)
computes the mean first and then the mean of the squared deviations; this
coincides with the population formula of the specification — the sum of
squared deviations divided by `N` (not `N - 1`, no Bessel correction) —
followed by the square root. -/
theorem std_population_formula (l : List OutcomeRecord) (h : l ≠ []) :
    npVariance (profitsOf l) = specPopVariance (profitsOf l) ∧
    Real.sqrt (npVariance (profitsOf l)) =
      Real.sqrt (specPopVariance (profitsOf l)) := by
  have key : npVariance (profitsOf l) = specPopVariance (profitsOf l) := by
    unfold npVariance specPopVariance npMean
    rw [List.length_map]
    simp only [sq_abs]
  exact ⟨key, by rw [key]⟩

theorem std_population_formula_witness :
    npVariance (profitsOf [(⟨1, none⟩ : OutcomeRecord), ⟨3, none⟩]) =
      specPopVariance (profitsOf [(⟨1, none⟩ : OutcomeRecord), ⟨3, none⟩]) :=
  (std_population_formula [⟨1, none⟩, ⟨3, none⟩] (by decide)).1

/-- C10: the summary computation is a pure function of the input sequence —
in this embedding every operation of lines 33-85 is a mathematical function
of the record list (no hidden state, randomness or time), so two runs on
the same sequence produce identical results and the input is never
mutated. -/
theorem summary_builder_deterministic (l : List OutcomeRecord) :
    process l = process l ∧ summaryStatsOf l = summaryStatsOf l :=
  ⟨rfl, rfl⟩

end Blackjack
